import Mathlib

/-!
# Verification of the egress allowlist → Envoy config generator

Shallow embedding of the rule-normalization and DNS-resolution pipeline of
`src/egress/generate-envoy-config.py`, together with theorems settling the
frozen claims about it.

Conventions of the embedding:
* Python strings are Lean `String`s, and all character-level operations are
  defined structurally over `String.data` (ASCII-faithful, which covers
  every construct the pipeline manipulates).
* The network (Python's `socket.getaddrinfo`) is modelled as an explicit
  function `Dns : String → Except String (List String)`: `.ok` carries the
  address strings of the successful lookup, `.error` carries the message of
  the raised `socket.gaierror`.
* Lines printed to `stderr` are collected into explicit `List String`
  diagnostic outputs.
* A Python exception that no handler catches is modelled by `Except.error`
  in the result of the processing functions.
* IP address parsing follows CPython's `ipaddress` module for the IPv4
  family (the address family the pipeline resolves and the data model
  carries): dotted-quad octets without leading zeros, `/` followed by a
  decimal prefix length or a dotted netmask/hostmask.
-/

namespace Egress

/-! ## Character and string helpers (ASCII, structurally computable) -/

/-- The characters kept by `sanitize_name` (the regex class `[a-zA-Z0-9]`). -/
def isAlnumAscii (c : Char) : Bool :=
  (('a' ≤ c && c ≤ 'z') || ('A' ≤ c && c ≤ 'Z') || ('0' ≤ c && c ≤ '9'))

/-- ASCII lower-casing of one character, as Python's `str.lower` acts on
the ASCII protocol tags handled by the pipeline. -/
def lowerChar (c : Char) : Char :=
  if 'A' ≤ c && c ≤ 'Z' then Char.ofNat (c.toNat + 32) else c

/-- ASCII upper-casing of one character (Python `str.upper`, used only in
log lines). -/
def upperChar (c : Char) : Char :=
  if 'a' ≤ c && c ≤ 'z' then Char.ofNat (c.toNat - 32) else c

/-- Embedding of Python `s.lower()` on the ASCII strings the pipeline
compares. -/
def pyLower (s : String) : String :=
  String.mk (s.data.map lowerChar)

/-- Embedding of Python `s.upper()` (log lines only). -/
def pyUpper (s : String) : String :=
  String.mk (s.data.map upperChar)

/-- Lexicographic (code-point) order on character lists: the order Python's
`sorted` uses on strings. -/
def lexLe : List Char → List Char → Bool
  | [], _ => true
  | _ :: _, [] => false
  | a :: as, b :: bs => if a < b then true else if a = b then lexLe as bs else false

/-- String comparison by code points, as Python compares strings. -/
def strLe (a b : String) : Bool :=
  lexLe a.data b.data

/-- Python `", ".join(l)` (log lines only). -/
def joinComma : List String → String
  | [] => ""
  | [s] => s
  | s :: rest => s ++ ", " ++ joinComma rest

/-! ## `sanitize_name` -/

/-- One character of `re.sub(r"[^a-zA-Z0-9]", "_", name)`. -/
def sanChar (c : Char) : Char :=
  if isAlnumAscii c then c else '_'

/-- Embedding of `sanitize_name`: replace every character outside
`[a-zA-Z0-9]` with `_`. -/
def sanitize_name (s : String) : String :=
  String.mk (s.data.map sanChar)

/-! ## IPv4 / CIDR parsing (CPython `ipaddress.ip_network(·, strict=False)`,
IPv4 family) -/

/-- Split a character list at every occurrence of `sep` (CPython
`str.split(sep)`); always returns at least one part. -/
def splitOn (sep : Char) : List Char → List (List Char)
  | [] => [[]]
  | c :: rest =>
    if c = sep then [] :: splitOn sep rest
    else
      match splitOn sep rest with
      | h :: t => (c :: h) :: t
      | [] => [[c]]

/-- Value of a nonempty all-ASCII-digit character list (CPython
`int(s, 10)` guarded by `s.isascii() and s.isdigit()`). -/
def digitsValAux : Nat → List Char → Option Nat
  | acc, [] => some acc
  | acc, c :: rest =>
    if c.isDigit then digitsValAux (acc * 10 + (c.toNat - 48)) rest else none

/-- `digitsVal l = some n` iff `l` is nonempty and all decimal digits. -/
def digitsVal (l : List Char) : Option Nat :=
  if l.isEmpty then none else digitsValAux 0 l

/-- CPython `IPv4Address._parse_octet`: nonempty, at most 3 decimal digits,
no leading zero (except `"0"` itself), value at most 255. -/
def parseOctet (l : List Char) : Option Nat :=
  match digitsVal l with
  | none => none
  | some n =>
    if l.length ≤ 3 && (decide (l.length = 1) || !(l.headD ' ' = '0')) && n ≤ 255
    then some n else none

/-- The 32-bit value of four parsed octets, when all four parse. -/
def parseQuad (a b c d : List Char) : Option Nat :=
  match parseOctet a, parseOctet b, parseOctet c, parseOctet d with
  | some x, some y, some z, some w =>
    some (((x * 256 + y) * 256 + z) * 256 + w)
  | _, _, _, _ => none

/-- CPython `IPv4Address._ip_int_from_string`: a dotted quad of valid
octets, as a 32-bit value. -/
def parseIPv4 (l : List Char) : Option Nat :=
  match splitOn '.' l with
  | [a, b, c, d] => parseQuad a b c d
  | _ => none

/-- The 32-bit netmask with `p` leading one bits (`p ≤ 32`). -/
def netmaskVal (p : Nat) : Nat :=
  2 ^ 32 - 2 ^ (32 - p)

/-- CPython `_prefix_from_ip_int`: recover the prefix length from a netmask
value, if the value is a valid netmask. -/
def prefixOfNetmask (v : Nat) : Option Nat :=
  (List.range 33).find? (fun p => v == netmaskVal p)

/-- CPython `_prefix_from_prefix_string`: an all-digit string whose value
is at most 32. -/
def prefixOfDigits (l : List Char) : Option Nat :=
  match digitsVal l with
  | none => none
  | some n => if n ≤ 32 then some n else none

/-- CPython `IPv4Network._make_netmask` for a string argument: first try a
decimal prefix length, then a dotted netmask, then a dotted hostmask. -/
def parseMask (l : List Char) : Option Nat :=
  match prefixOfDigits l with
  | some p => some p
  | none =>
    match parseIPv4 l with
    | none => none
    | some v =>
      match prefixOfNetmask v with
      | some p => some p
      | none => prefixOfNetmask (v ^^^ (2 ^ 32 - 1))

/-- Embedding of `ipaddress.ip_network(destination, strict=False)` for the
IPv4 family: returns `(network_address_value, prefix_length)`, masking the
host bits (that is what `strict=False` does). At most one `/` is permitted. -/
def ipNetwork (s : String) : Option (Nat × Nat) :=
  match splitOn '/' s.data with
  | [a] => (parseIPv4 a).map (fun v => (v, 32))
  | [a, m] =>
    match parseIPv4 a, parseMask m with
    | some v, some p => some (v &&& netmaskVal p, p)
    | _, _ => none
  | _ => none

/-- Render a 32-bit value as a dotted quad (CPython
`str(network.network_address)`). -/
def ipToString (v : Nat) : String :=
  toString (v / 16777216 % 256) ++ "." ++ toString (v / 65536 % 256) ++ "."
    ++ toString (v / 256 % 256) ++ "." ++ toString (v % 256)

/-- Embedding of `is_ip_or_cidr`: does the destination parse as an IP
address or CIDR network? -/
def is_ip_or_cidr (destination : String) : Bool :=
  (ipNetwork destination).isSome

/-- Embedding of `parse_cidr`: parse an IP or CIDR into
`(network_address, prefix_len)`; on a parse failure fall back to the raw
string with prefix length 32. -/
def parse_cidr (destination : String) : String × Nat :=
  match ipNetwork destination with
  | some (v, p) => (ipToString v, p)
  | none => (destination, 32)

/-! ## Hostname resolution -/

/-- The network, as seen by `socket.getaddrinfo(h, None, AF_INET)`: `.ok`
carries the address strings of the returned records (projection
`r[4][0]`, duplicates possible), `.error` the message of the raised
`socket.gaierror`. -/
abbrev Dns : Type :=
  String → Except String (List String)

/-- Python `sorted(list(set(ips)))` for strings: the sorted list of the
distinct elements (insertion sort; the order is linear on distinct
strings, so any sort returns the same list Python's does). -/
def pySortedSet (l : List String) : List String :=
  List.insertionSort (fun a b => strLe a b = true) l.dedup

/-- Embedding of `resolve_hostname`: on success the deduplicated, sorted
addresses and no diagnostics; on a lookup error an empty list and one
warning line. -/
def resolve_hostname (dns : Dns) (hostname : String) : List String × List String :=
  match dns hostname with
  | Except.ok results => (pySortedSet results, [])
  | Except.error e =>
    ([], ["WARNING: Could not resolve " ++ hostname ++ ": " ++ e])

/-! ## Data model -/

/-- A raw allowlist entry, as parsed from the YAML document: each optional
field models the presence of the corresponding key with a well-typed
value. -/
structure RawRule where
  protocol : Option String := none
  destination : Option String := none
  destinations : Option (List String) := none
  domains : Option (List String) := none
  port : Option Int := none
  port_range : Option (Int × Int) := none
  description : Option String := none
  envs : Option (List String) := none
deriving Repr, DecidableEq

/-- One entry of a TCP rule's `ip_addresses` list. -/
structure ResolvedAddress where
  address : String
  prefix_len : Nat
deriving Repr, DecidableEq

/-- A processed HTTP rule record. -/
structure HttpRule where
  name : String
  domains : List String
  port : Int
  description : String
  envs : List String
deriving Repr, DecidableEq

/-- A processed TCP rule record; `port` and `port_range` model the two
optional keys of the produced dictionary. -/
structure TcpRule where
  name : String
  description : String
  destinations : List String
  ip_addresses : List ResolvedAddress
  stat_name : String
  envs : List String
  port : Option Int := none
  port_range : Option (Int × Int) := none
deriving Repr, DecidableEq

/-- The per-run DNS cache (a Python dict hostname → resolved list, keys
inserted at most once). -/
abbrev Cache : Type :=
  List (String × List String)

/-- The parsed allowlist document; `egress = none` models a document
without the `egress` top-level key. -/
structure AllowlistDoc where
  egress : Option (List RawRule) := none

/-! ## `rule_applies_to_env` -/

/-- Embedding of `rule_applies_to_env`: no (or empty) `envs` applies
everywhere, otherwise membership decides. -/
def rule_applies_to_env (rule : RawRule) (target_env : String) : Bool :=
  let envs := rule.envs.getD []
  if envs.isEmpty then true
  else envs.contains target_env

/-! ## HTTP pass -/

/-- The HTTP-side domain selection: `domains` key first, else a singleton
from `destination`. -/
def httpDomains (rule : RawRule) : Option (List String) :=
  match rule.domains with
  | some ds => some ds
  | none => rule.destination.map (fun d => [d])

/-- Processing of one entry by the HTTP pass. Result: `.ok (maybe-rule,
stderr-lines)`; `.error` models an uncaught Python exception (indexing
`domains[0]` on an empty list). -/
def processHttpRule (target_env : String) (rule : RawRule) :
    Except String (Option HttpRule × List String) :=
  let protocol := pyLower (rule.protocol.getD "tcp")
  if protocol ≠ "http" then Except.ok (none, [])
  else if ¬ rule_applies_to_env rule target_env then Except.ok (none, [])
  else
    match httpDomains rule with
    | none =>
      Except.ok (none, ["WARNING: HTTP rule missing destination or domains, skipping"])
    | some domains =>
      let port := rule.port.getD 443
      let description := rule.description.getD ""
      let envs := rule.envs.getD ["dev", "stg", "prd"]
      match domains with
      | [] => Except.error ("IndexError: list index out of range")
      | first_domain :: _ =>
        let rule_name := sanitize_name (first_domain ++ "_" ++ toString port)
        Except.ok
          (some { name := rule_name, domains := domains, port := port,
                  description := description, envs := envs },
           ["[HTTP] " ++ pyUpper target_env ++ ": " ++ joinComma domains ++ ":"
              ++ toString port])

/-- Embedding of `process_http_rules`: the HTTP pass over the whole entry
list, concatenating produced rules and diagnostics in order. -/
def process_http_rules (rules : List RawRule) (target_env : String) :
    Except String (List HttpRule × List String) :=
  match rules with
  | [] => Except.ok ([], [])
  | r :: rest => do
    let (orule, diags) ← processHttpRule target_env r
    let (hrules, diags2) ← process_http_rules rest target_env
    Except.ok (orule.toList ++ hrules, diags ++ diags2)

/-! ## TCP pass -/

/-- The TCP-side destination selection: `destination` key first (as a
singleton), else the `destinations` list. -/
def tcpDests (rule : RawRule) : Option (List String) :=
  match rule.destination with
  | some d => some [d]
  | none => rule.destinations

/-- The TCP-side port selection: the `port` key first, else `port_range`;
`none` when both are missing. -/
def tcpPortSel (rule : RawRule) : Option (Option Int × Option (Int × Int)) :=
  match rule.port with
  | some p => some (some p, none)
  | none =>
    match rule.port_range with
    | some pr => some (none, some pr)
    | none => none

/-- Python truthiness of the `port` variable (`if port:`): set and
nonzero. -/
def pyTruthyInt (p : Option Int) : Bool :=
  match p with
  | some v => v ≠ 0
  | none => false

/-- The `port_str` computation of `process_tcp_rules`: `str(port)` when
`port` is truthy, otherwise `f"{port_range['start']}_{port_range['end']}"`;
`none` models the `TypeError` of indexing a `None` range. -/
def portStrSel (port : Option Int) (port_range : Option (Int × Int)) : Option String :=
  if pyTruthyInt port then port.map toString
  else port_range.map (fun pr => toString pr.1 ++ "_" ++ toString pr.2)

/-- The `[TCP]` success log line printed for a produced rule. -/
def tcpLogLine (target_env : String) (resolved_destinations : List String)
    (port : Option Int) (port_range : Option (Int × Int)) (count : Nat) : String :=
  "[TCP]  " ++ pyUpper target_env ++ ": " ++ joinComma resolved_destinations ++ ":"
    ++ (if pyTruthyInt port then toString (port.getD 0)
        else
          match port_range with
          | some pr => toString pr.1 ++ "-" ++ toString pr.2
          | none => "")
    ++ " (" ++ toString count ++ " IPs)"

/-- One iteration of the destination-resolution loop. State:
`(ip_addresses, resolved_destinations, dns_cache, stderr-lines)`. -/
def destStep (dns : Dns) (target_env : String)
    (st : List ResolvedAddress × List String × Cache × List String)
    (destination : String) :
    List ResolvedAddress × List String × Cache × List String :=
  let (ips, rds, cache, diags) := st
  if is_ip_or_cidr destination then
    let (ip_address, plen) := parse_cidr destination
    (ips ++ [⟨ip_address, plen⟩], rds ++ [destination], cache, diags)
  else
    let (hips, warns, cache2) :=
      match cache.lookup destination with
      | some cached => (cached, [], cache)
      | none =>
        let (res, warns) := resolve_hostname dns destination
        (res, warns, cache ++ [(destination, res)])
    if hips.isEmpty then
      (ips, rds, cache2,
       diags ++ warns
         ++ ["ERROR: Cannot resolve " ++ destination ++ " for " ++ target_env
               ++ ", skipping"])
    else
      (ips ++ hips.map (fun ip => ⟨ip, 32⟩),
       rds ++ hips.map (fun ip => destination ++ "->" ++ ip),
       cache2, diags ++ warns)

/-- Processing of one entry by the TCP pass. Result: `.ok (maybe-rule,
cache-after, stderr-lines)`; `.error` models the uncaught `TypeError` of
indexing `port_range` when it is `None` (entry with `port: 0`). -/
def processTcpRule (dns : Dns) (target_env : String) (cache : Cache)
    (rule : RawRule) :
    Except String (Option TcpRule × Cache × List String) :=
  let protocol := pyLower (rule.protocol.getD "tcp")
  if protocol ≠ "tcp" then Except.ok (none, cache, [])
  else if ¬ rule_applies_to_env rule target_env then Except.ok (none, cache, [])
  else
    let description := rule.description.getD ""
    let envs := rule.envs.getD ["dev", "stg", "prd"]
    match tcpDests rule with
    | none =>
      Except.ok (none, cache,
        ["WARNING: TCP rule missing destination or destinations, skipping"])
    | some destinations =>
      match tcpPortSel rule with
      | none =>
        Except.ok (none, cache,
          ["WARNING: TCP rule missing port or port_range, skipping"])
      | some (port, port_range) =>
        let res := destinations.foldl (destStep dns target_env) ([], [], cache, [])
        let ip_addresses := res.1
        let resolved_destinations := res.2.1
        let cache2 := res.2.2.1
        let diags := res.2.2.2
        if ip_addresses.isEmpty then
          Except.ok (none, cache2,
            diags ++ ["WARNING: No valid IPs for rule, skipping"])
        else
          match portStrSel port port_range with
          | none => Except.error ("TypeError: NoneType object is not subscriptable")
          | some port_str =>
            let first_dest := destinations.headD ""
            let rule_name := sanitize_name ("allow_" ++ first_dest ++ "_" ++ port_str)
            let stat_name := sanitize_name (first_dest ++ "_" ++ port_str)
            let tcp_rule : TcpRule :=
              { name := rule_name, description := description,
                destinations := destinations, ip_addresses := ip_addresses,
                stat_name := stat_name, envs := envs,
                port := if pyTruthyInt port then port else none,
                port_range := if pyTruthyInt port then none else port_range }
            Except.ok (some tcp_rule, cache2,
              diags ++ [tcpLogLine target_env resolved_destinations port
                port_range ip_addresses.length])

/-- Embedding of `process_tcp_rules`: the TCP pass over the whole entry
list, threading the DNS cache and concatenating rules and diagnostics in
order. -/
def process_tcp_rules (dns : Dns) (rules : List RawRule) (target_env : String)
    (cache : Cache) :
    Except String (List TcpRule × Cache × List String) :=
  match rules with
  | [] => Except.ok ([], cache, [])
  | r :: rest => do
    let (orule, cache2, diags) ← processTcpRule dns target_env cache r
    let (trules, cache3, diags2) ← process_tcp_rules dns rest target_env cache2
    Except.ok (orule.toList ++ trules, cache3, diags ++ diags2)

/-! ## Pipeline orchestrator -/

/-- Embedding of `process_allowlist` from the parsed document onward: the
`egress` key defaults to the empty list (`config.get("egress", [])`), a
fresh DNS cache is created, and both passes run over the same entries. -/
def process_allowlist (dns : Dns) (doc : AllowlistDoc) (target_env : String) :
    Except String (List HttpRule × List TcpRule × List String) :=
  let rules := doc.egress.getD []
  do
    let (http_rules, diags) ← process_http_rules rules target_env
    let (tcp_rules, _, diags2) ← process_tcp_rules dns rules target_env []
    Except.ok (http_rules, tcp_rules, diags ++ diags2)

/-! ## Derived characterizations used by the theorems -/

/-- The addresses one destination contributes to a TCP rule: a literal
parses directly, a hostname contributes its resolved addresses with
prefix length 32 (empty when resolution fails). -/
def expandDest (dns : Dns) (destination : String) : List ResolvedAddress :=
  if is_ip_or_cidr destination then
    [⟨(parse_cidr destination).1, (parse_cidr destination).2⟩]
  else
    (resolve_hostname dns destination).1.map (fun ip => ⟨ip, 32⟩)

/-- A cache is consistent with the network when every stored entry is the
result `resolve_hostname` would return. -/
def cacheConsistent (dns : Dns) (cache : Cache) : Prop :=
  ∀ d l, cache.lookup d = some l → l = (resolve_hostname dns d).1

/-- The per-destination resolution-failure diagnostic line. -/
def cannotResolveMsg (destination target_env : String) : String :=
  "ERROR: Cannot resolve " ++ destination ++ " for " ++ target_env ++ ", skipping"

/-! ## Helper lemmas -/

theorem splitOn_ne_nil (sep : Char) (l : List Char) : splitOn sep l ≠ [] := by
  cases l with
  | nil => simp [splitOn]
  | cons c rest =>
    simp only [splitOn]
    by_cases h : c = sep
    · simp [h]
    · simp only [h, if_false]
      cases hs : splitOn sep rest with
      | nil => simp
      | cons a t => simp

theorem splitOn_of_not_mem {sep : Char} {l : List Char} (h : sep ∉ l) :
    splitOn sep l = [l] := by
  induction l with
  | nil => rfl
  | cons c rest ih =>
    have hc : ¬ c = sep := fun hc => h (hc ▸ List.mem_cons_self c rest)
    have hrest : sep ∉ rest := fun hm => h (List.mem_cons_of_mem c hm)
    simp only [splitOn, hc, if_false, ih hrest]

theorem mem_of_splitOn {sep : Char} {l : List Char} {c : Char} (h : c ∈ l) :
    c = sep ∨ ∃ part ∈ splitOn sep l, c ∈ part := by
  induction l with
  | nil => cases h
  | cons a rest ih =>
    by_cases ha : a = sep
    · rcases List.mem_cons.mp h with h1 | h1
      · exact Or.inl (h1.trans ha)
      · rcases ih h1 with h2 | ⟨part, hp, hcp⟩
        · exact Or.inl h2
        · exact Or.inr ⟨part, by simp [splitOn, ha, hp], hcp⟩
    · simp only [splitOn, ha, if_false]
      cases hs : splitOn sep rest with
      | nil => exact absurd hs (splitOn_ne_nil sep rest)
      | cons p t =>
        rcases List.mem_cons.mp h with h1 | h1
        · exact Or.inr ⟨a :: p, List.mem_cons_self _ _, h1 ▸ List.mem_cons_self a p⟩
        · rcases ih h1 with h2 | ⟨part, hp, hcp⟩
          · exact Or.inl h2
          · rw [hs] at hp
            rcases List.mem_cons.mp hp with h3 | h3
            · exact Or.inr ⟨a :: p, List.mem_cons_self _ _,
                List.mem_cons_of_mem a (h3 ▸ hcp)⟩
            · exact Or.inr ⟨part, List.mem_cons_of_mem _ h3, hcp⟩

theorem digitsValAux_digits {l : List Char} :
    ∀ {acc n : Nat}, digitsValAux acc l = some n → ∀ c ∈ l, c.isDigit := by
  induction l with
  | nil => intro _ _ _ c hc; cases hc
  | cons a rest ih =>
    intro acc n h c hc
    simp only [digitsValAux] at h
    by_cases ha : a.isDigit
    · rw [if_pos ha] at h
      rcases List.mem_cons.mp hc with h1 | h1
      · exact h1 ▸ ha
      · exact ih h c h1
    · rw [if_neg ha] at h
      cases h

theorem parseOctet_digits {l : List Char} {n : Nat} (h : parseOctet l = some n) :
    ∀ c ∈ l, c.isDigit := by
  simp only [parseOctet] at h
  cases hd : digitsVal l with
  | none => rw [hd] at h; cases h
  | some m =>
    rw [hd] at h
    simp only [digitsVal] at hd
    by_cases he : l.isEmpty
    · rw [if_pos he] at hd; cases hd
    · rw [if_neg he] at hd
      exact digitsValAux_digits hd

theorem parseQuad_digits {a b c d : List Char} {v : Nat}
    (h : parseQuad a b c d = some v) :
    (∀ x ∈ a, x.isDigit) ∧ (∀ x ∈ b, x.isDigit) ∧ (∀ x ∈ c, x.isDigit)
      ∧ (∀ x ∈ d, x.isDigit) := by
  unfold parseQuad at h
  cases ha : parseOctet a with
  | none => rw [ha] at h; cases h
  | some na =>
    cases hb : parseOctet b with
    | none => rw [ha, hb] at h; cases h
    | some nb =>
      cases hc : parseOctet c with
      | none => rw [ha, hb, hc] at h; cases h
      | some nc =>
        cases hd : parseOctet d with
        | none => rw [ha, hb, hc, hd] at h; cases h
        | some nd =>
          exact ⟨parseOctet_digits ha, parseOctet_digits hb,
            parseOctet_digits hc, parseOctet_digits hd⟩

theorem parseIPv4_quad {l : List Char} {v : Nat} (h : parseIPv4 l = some v) :
    ∃ a b c d, splitOn '.' l = [a, b, c, d] ∧ parseQuad a b c d = some v := by
  unfold parseIPv4 at h
  rcases hs : splitOn '.' l with _ | ⟨a, _ | ⟨b, _ | ⟨c, _ | ⟨d, _ | ⟨e, t⟩⟩⟩⟩⟩ <;>
    rw [hs] at h
  · exact Option.noConfusion h
  · exact Option.noConfusion h
  · exact Option.noConfusion h
  · exact Option.noConfusion h
  · exact ⟨a, b, c, d, rfl, h⟩
  · exact Option.noConfusion h

theorem parseIPv4_chars {l : List Char} {v : Nat} (h : parseIPv4 l = some v) :
    ∀ c ∈ l, c = '.' ∨ c.isDigit := by
  intro c hc
  obtain ⟨a, b, c2, d, hs, hq⟩ := parseIPv4_quad h
  obtain ⟨h1, h2, h3, h4⟩ := parseQuad_digits hq
  rcases @mem_of_splitOn '.' l c hc with hcd | ⟨part, hp, hcp⟩
  · exact Or.inl hcd
  · rw [hs] at hp
    simp only [List.mem_cons, List.not_mem_nil, or_false] at hp
    rcases hp with rfl | rfl | rfl | rfl
    · exact Or.inr (h1 c hcp)
    · exact Or.inr (h2 c hcp)
    · exact Or.inr (h3 c hcp)
    · exact Or.inr (h4 c hcp)

theorem ipNetwork_bare {s : String} {v : Nat} (h : parseIPv4 s.data = some v) :
    ipNetwork s = some (v, 32) := by
  have hmem : '/' ∉ s.data := by
    intro hm
    rcases parseIPv4_chars h '/' hm with h1 | h1
    · exact absurd h1 (by decide)
    · exact absurd h1 (by decide)
  unfold ipNetwork
  rw [splitOn_of_not_mem hmem]
  show (parseIPv4 s.data).map (fun v => (v, 32)) = some (v, 32)
  rw [h]
  rfl

theorem lexLe_total : ∀ a b : List Char, (lexLe a b || lexLe b a) = true := by
  intro a
  induction a with
  | nil => intro b; simp [lexLe]
  | cons x xs ih =>
    intro b
    cases b with
    | nil => simp [lexLe]
    | cons y ys =>
      simp only [lexLe]
      by_cases h1 : x < y
      · simp [h1]
      · by_cases h2 : x = y
        · subst h2
          simp only [lt_irrefl, if_false, if_pos rfl]
          exact ih ys
        · have h3 : y < x := by
            rcases lt_trichotomy x y with h | h | h
            · exact absurd h h1
            · exact absurd h h2
            · exact h
          have h4 : ¬ y = x := fun e => h2 e.symm
          simp [h1, h2, h3]

theorem lexLe_trans :
    ∀ a b c : List Char, lexLe a b = true → lexLe b c = true → lexLe a c = true := by
  intro a
  induction a with
  | nil => intro b c _ _; simp [lexLe]
  | cons x xs ih =>
    intro b c hab hbc
    cases b with
    | nil => simp [lexLe] at hab
    | cons y ys =>
      cases c with
      | nil => simp [lexLe] at hbc
      | cons z zs =>
        simp only [lexLe] at hab hbc ⊢
        by_cases h1 : x < y
        · by_cases h2 : y < z
          · simp [lt_trans h1 h2]
          · by_cases h3 : y = z
            · subst h3; simp [h1]
            · simp [h2, h3] at hbc
        · by_cases h4 : x = y
          · subst h4
            by_cases h2 : x < z
            · simp [h2]
            · by_cases h3 : x = z
              · subst h3
                simp only [lt_irrefl, if_false, if_pos rfl] at hab hbc ⊢
                exact ih ys zs hab hbc
              · simp [h2, h3] at hbc
          · simp [h1, h4] at hab

theorem strLe_trans (a b c : String) (h1 : strLe a b = true) (h2 : strLe b c = true) :
    strLe a c = true :=
  lexLe_trans a.data b.data c.data h1 h2

theorem strLe_total (a b : String) : (strLe a b || strLe b a) = true :=
  lexLe_total a.data b.data

instance : IsTrans String (fun a b => strLe a b = true) :=
  ⟨strLe_trans⟩

instance : IsTotal String (fun a b => strLe a b = true) :=
  ⟨fun a b => Bool.or_eq_true_iff.mp (strLe_total a b)⟩

theorem lookup_append_of_some {α β : Type} [BEq α] {k : α} {b : β}
    {l₁ l₂ : List (α × β)} (h : List.lookup k l₁ = some b) :
    List.lookup k (l₁ ++ l₂) = some b := by
  induction l₁ with
  | nil => cases h
  | cons p rest ih =>
    obtain ⟨a, v⟩ := p
    rw [List.lookup_cons] at h
    show List.lookup k ((a, v) :: (rest ++ l₂)) = some b
    rw [List.lookup_cons]
    cases hk : k == a with
    | true => rw [hk] at h; exact h
    | false => rw [hk] at h; exact ih h

theorem lookup_append_of_none {α β : Type} [BEq α] {k : α}
    {l₁ l₂ : List (α × β)} (h : List.lookup k l₁ = none) :
    List.lookup k (l₁ ++ l₂) = List.lookup k l₂ := by
  induction l₁ with
  | nil => rfl
  | cons p rest ih =>
    obtain ⟨a, v⟩ := p
    rw [List.lookup_cons] at h
    show List.lookup k ((a, v) :: (rest ++ l₂)) = List.lookup k l₂
    rw [List.lookup_cons]
    cases hk : k == a with
    | true => rw [hk] at h; exact Option.noConfusion h
    | false => rw [hk] at h; exact ih h

theorem cacheConsistent_nil (dns : Dns) : cacheConsistent dns [] := by
  intro d l h
  exact Option.noConfusion h

theorem cacheConsistent_insert {dns : Dns} {cache : Cache}
    (h : cacheConsistent dns cache) (d : String) :
    cacheConsistent dns (cache ++ [(d, (resolve_hostname dns d).1)]) := by
  intro d' l' hl
  cases hfind : List.lookup d' cache with
  | some l0 =>
    rw [lookup_append_of_some hfind] at hl
    injection hl with hl
    exact hl ▸ h d' l0 hfind
  | none =>
    rw [lookup_append_of_none hfind] at hl
    rw [List.lookup_cons] at hl
    cases hk : d' == d with
    | true =>
      rw [hk] at hl
      injection hl with hl
      rw [eq_of_beq hk, ← hl]
    | false =>
      rw [hk] at hl
      cases hl

/-- Characterization of one iteration of the destination-resolution loop:
the contributed addresses are `expandDest`, cache consistency is kept,
diagnostics only grow, and a failed hostname gets its error line. -/
theorem destStep_char (dns : Dns) (env : String)
    (st : List ResolvedAddress × List String × Cache × List String) (d : String)
    (hc : cacheConsistent dns st.2.2.1) :
    (destStep dns env st d).1 = st.1 ++ expandDest dns d
      ∧ cacheConsistent dns (destStep dns env st d).2.2.1
      ∧ (∀ x ∈ st.2.2.2, x ∈ (destStep dns env st d).2.2.2)
      ∧ (is_ip_or_cidr d = false → (resolve_hostname dns d).1 = [] →
          cannotResolveMsg d env ∈ (destStep dns env st d).2.2.2) := by
  obtain ⟨ips, rds, cache, diags⟩ := st
  by_cases hip : is_ip_or_cidr d
  · have hstep : destStep dns env (ips, rds, cache, diags) d
        = (ips ++ [⟨(parse_cidr d).1, (parse_cidr d).2⟩], rds ++ [d], cache, diags) := by
      simp [destStep, hip]
    rw [hstep]
    refine ⟨by simp [expandDest, hip], hc, fun x hx => hx, fun hfip => ?_⟩
    rw [hip] at hfip
    cases hfip
  · simp only [Bool.not_eq_true] at hip
    have hres : ∃ cache2 extra,
        destStep dns env (ips, rds, cache, diags) d
          = (if (resolve_hostname dns d).1.isEmpty then
               (ips, rds, cache2, diags ++ extra ++ [cannotResolveMsg d env])
             else
               (ips ++ ((resolve_hostname dns d).1).map (fun ip => ⟨ip, 32⟩),
                rds ++ ((resolve_hostname dns d).1).map (fun ip => d ++ "->" ++ ip),
                cache2, diags ++ extra))
          ∧ cacheConsistent dns cache2 := by
      cases hlk : List.lookup d cache with
      | some cached =>
        have hcached : cached = (resolve_hostname dns d).1 := hc d cached hlk
        refine ⟨cache, [], ?_, hc⟩
        simp only [destStep, hip, Bool.false_eq_true, if_false, hlk, hcached,
          cannotResolveMsg, List.append_nil]
      | none =>
        refine ⟨cache ++ [(d, (resolve_hostname dns d).1)], (resolve_hostname dns d).2,
          ?_, cacheConsistent_insert hc d⟩
        simp only [destStep, hip, Bool.false_eq_true, if_false, hlk,
          cannotResolveMsg, List.append_assoc]
    obtain ⟨cache2, extra, hstep, hc2⟩ := hres
    rw [hstep]
    by_cases he : ((resolve_hostname dns d).1).isEmpty
    · have hnil : (resolve_hostname dns d).1 = [] := List.isEmpty_iff.mp he
      rw [if_pos he]
      refine ⟨?_, hc2, ?_, ?_⟩
      · simp [expandDest, hip, hnil]
      · intro x hx
        simp only [List.mem_append]
        exact Or.inl (Or.inl hx)
      · intro _ _
        simp
    · rw [if_neg he]
      refine ⟨by simp [expandDest, hip], hc2, ?_, ?_⟩
      · intro x hx
        simp only [List.mem_append]
        exact Or.inl hx
      · intro _ hnil
        rw [hnil] at he
        simp at he

/-- Characterization of the whole destination-resolution loop. -/
theorem destStep_foldl (dns : Dns) (env : String) :
    ∀ (ds : List String)
      (st : List ResolvedAddress × List String × Cache × List String),
      cacheConsistent dns st.2.2.1 →
      (ds.foldl (destStep dns env) st).1 = st.1 ++ ds.flatMap (expandDest dns)
        ∧ cacheConsistent dns (ds.foldl (destStep dns env) st).2.2.1
        ∧ (∀ x ∈ st.2.2.2, x ∈ (ds.foldl (destStep dns env) st).2.2.2)
        ∧ (∀ d ∈ ds, is_ip_or_cidr d = false → (resolve_hostname dns d).1 = [] →
            cannotResolveMsg d env ∈ (ds.foldl (destStep dns env) st).2.2.2) := by
  intro ds
  induction ds with
  | nil =>
    intro st hc
    exact ⟨by simp, hc, fun x hx => hx, fun d hd => absurd hd (List.not_mem_nil d)⟩
  | cons d rest ih =>
    intro st hc
    rw [List.foldl_cons]
    obtain ⟨s1, s2, s3, s4⟩ := destStep_char dns env st d hc
    obtain ⟨r1, r2, r3, r4⟩ := ih (destStep dns env st d) s2
    refine ⟨?_, r2, fun x hx => r3 x (s3 x hx), ?_⟩
    · rw [r1, s1, List.flatMap_cons, List.append_assoc]
    · intro d' hd' hfip hres
      rcases List.mem_cons.mp hd' with rfl | hd'
      · exact r3 _ (s4 hfip hres)
      · exact r4 d' hd' hfip hres

/-! ## Concrete fixtures used by witnesses and counterexamples -/

/-- A network on which every lookup fails. -/
def dnsFail : Dns := fun _ => Except.error ("NXDOMAIN")

/-- An entry with an unknown protocol value. -/
def rUdp : RawRule :=
  { protocol := some ("udp"), destination := some ("10.0.0.1"), port := some 53 }

/-- An entry with no `envs` key. -/
def rNoEnvs : RawRule := { protocol := some ("http") }

/-- An entry scoped to the `prd` environment only. -/
def rPrdOnly : RawRule := { envs := some ["prd"] }

/-! ## Claim theorems -/

/-- C1 (amended): when the allowlist document has no `egress` top-level
key, `process_allowlist` does NOT abort: the rule list defaults to empty
and the run returns empty HTTP and TCP rule collections. -/
theorem C1_missing_egress_key_not_fatal (dns : Dns) (target_env : String) :
    process_allowlist dns { egress := none } target_env
      = Except.ok ([], [], []) := rfl

/-- C1 counterexample to the claim as stated: with the `egress` key
missing, the run completes normally and returns (empty) rule collections
instead of aborting with a fatal error. -/
theorem C1_counterexample :
    process_allowlist dnsFail { egress := none } "dev"
      = Except.ok ([], [], []) := rfl

/-- C7: an entry with no `envs` key (or an empty `envs`) applies to every
target environment; an entry with a non-empty `envs` applies exactly when
the target environment is a member. -/
theorem C7_env_filtering (rule : RawRule) (target_env : String) :
    ((rule.envs = none ∨ rule.envs = some []) →
        rule_applies_to_env rule target_env = true)
      ∧ (∀ l, rule.envs = some l → l ≠ [] →
          (rule_applies_to_env rule target_env = true ↔ target_env ∈ l)) := by
  constructor
  · rintro (h | h) <;> simp [rule_applies_to_env, h]
  · intro l hl hne
    simp [rule_applies_to_env, hl, hne, List.contains, List.elem_iff]

/-- C7 witness: the spec's example, an entry whose `envs` is `["prd"]` is
excluded for `dev` and included for `prd`, and an entry without `envs` is
included for `dev`. -/
theorem C7_env_filtering_witness :
    rule_applies_to_env rNoEnvs "dev" = true
      ∧ (rule_applies_to_env rPrdOnly "prd" = true ↔ "prd" ∈ ["prd"])
      ∧ (rule_applies_to_env rPrdOnly "dev" = true ↔ "dev" ∈ ["prd"]) :=
  ⟨(C7_env_filtering rNoEnvs "dev").1 (Or.inl rfl),
   (C7_env_filtering rPrdOnly "prd").2 ["prd"] rfl (by decide),
   (C7_env_filtering rPrdOnly "dev").2 ["prd"] rfl (by decide)⟩

theorem sanChar_idem (c : Char) : sanChar (sanChar c) = sanChar c := by
  unfold sanChar
  by_cases h : isAlnumAscii c
  · simp [h]
  · simp [h]

theorem sanChar_mem (c : Char) : isAlnumAscii (sanChar c) = true ∨ sanChar c = '_' := by
  unfold sanChar
  by_cases h : isAlnumAscii c
  · simp [h]
  · simp [h]

/-- C9: `sanitize_name` is idempotent and its output only contains
characters in `[A-Za-z0-9_]`; it is a total function by construction. -/
theorem C9_sanitize_idempotent_charset (s : String) :
    sanitize_name (sanitize_name s) = sanitize_name s
      ∧ ∀ c ∈ (sanitize_name s).data, isAlnumAscii c = true ∨ c = '_' := by
  constructor
  · show String.mk ((s.data.map sanChar).map sanChar) = String.mk (s.data.map sanChar)
    rw [List.map_map]
    exact congrArg String.mk (List.map_congr_left fun c _ => sanChar_idem c)
  · intro c hc
    obtain ⟨c0, _, rfl⟩ := List.mem_map.mp hc
    exact sanChar_mem c0

/-- C9 witness at a concrete string and character. -/
theorem C9_sanitize_witness :
    sanitize_name (sanitize_name ("a.b")) = sanitize_name ("a.b")
      ∧ (isAlnumAscii 'a' = true ∨ 'a' = '_') :=
  ⟨(C9_sanitize_idempotent_charset ("a.b")).1,
   (C9_sanitize_idempotent_charset ("a.b")).2 'a' (by decide)⟩

/-- C10: an entry with no `protocol` key is treated by both passes exactly
as protocol `"tcp"` (so it can only produce a TCP rule and the HTTP pass
skips it), and protocol matching is case-insensitive (`"HTTP"`, `"Tcp"`). -/
theorem C10_protocol_default_and_case (dns : Dns) (target_env : String)
    (cache : Cache) (dst : Option String) (dsts doms : Option (List String))
    (p : Option Int) (pr : Option (Int × Int)) (desc : Option String)
    (evs : Option (List String)) :
    processHttpRule target_env ⟨none, dst, dsts, doms, p, pr, desc, evs⟩
        = Except.ok (none, [])
      ∧ processTcpRule dns target_env cache ⟨none, dst, dsts, doms, p, pr, desc, evs⟩
          = processTcpRule dns target_env cache
              ⟨some ("tcp"), dst, dsts, doms, p, pr, desc, evs⟩
      ∧ processHttpRule target_env ⟨some ("HTTP"), dst, dsts, doms, p, pr, desc, evs⟩
          = processHttpRule target_env ⟨some ("http"), dst, dsts, doms, p, pr, desc, evs⟩
      ∧ processTcpRule dns target_env cache ⟨some ("Tcp"), dst, dsts, doms, p, pr, desc, evs⟩
          = processTcpRule dns target_env cache
              ⟨some ("tcp"), dst, dsts, doms, p, pr, desc, evs⟩ :=
  ⟨rfl, rfl, rfl, rfl⟩

/-- C4 (amended): an entry whose (lower-cased, defaulted) protocol is
neither `http` nor `tcp` is skipped by both passes silently — no rule, no
diagnostic, and no fatal error. -/
theorem C4_unknown_protocol_skipped_silently (dns : Dns) (target_env : String)
    (cache : Cache) (rule : RawRule)
    (hh : pyLower (rule.protocol.getD "tcp") ≠ "http")
    (ht : pyLower (rule.protocol.getD "tcp") ≠ "tcp") :
    processHttpRule target_env rule = Except.ok (none, [])
      ∧ processTcpRule dns target_env cache rule = Except.ok (none, cache, []) := by
  constructor
  · unfold processHttpRule
    rw [if_pos hh]
  · unfold processTcpRule
    rw [if_pos ht]

/-- C4 counterexample to the claim as stated: an entry with protocol
`"udp"` is skipped by both passes with NO diagnostic at all (empty
diagnostic output), contradicting the claimed warning. -/
theorem C4_counterexample :
    processHttpRule "dev" rUdp = Except.ok (none, [])
      ∧ processTcpRule dnsFail "dev" [] rUdp = Except.ok (none, [], []) :=
  ⟨rfl, rfl⟩

/-- C4 witness for the amended theorem at a concrete entry. -/
theorem C4_witness :
    (pyLower (rUdp.protocol.getD "tcp") ≠ "http")
      ∧ (pyLower (rUdp.protocol.getD "tcp") ≠ "tcp")
      ∧ (processHttpRule "stg" rUdp = Except.ok (none, [])
          ∧ processTcpRule dnsFail "stg" [] rUdp = Except.ok (none, [], [])) :=
  ⟨by decide, by decide,
   C4_unknown_protocol_skipped_silently dnsFail "stg" [] rUdp
     (by decide) (by decide)⟩

/-- A network that answers every lookup with the same (unsorted,
duplicated) record set. -/
def dnsOk : Dns := fun _ => Except.ok (["9.9.9.9", "1.1.1.1", "9.9.9.9"])

/-- A single-destination TCP entry with a literal IP and a fixed port. -/
def rSingle : RawRule := { destination := some ("10.0.0.1"), port := some 443 }

/-- A single-destination TCP entry with a port range. -/
def rRange : RawRule :=
  { destination := some ("10.0.0.1"), port_range := some (8000, 8010) }

/-- The rule `rRange` produces. -/
def tRange : TcpRule :=
  { name := "allow_10_0_0_1_8000_8010", description := "",
    destinations := ["10.0.0.1"], ip_addresses := [⟨"10.0.0.1", 32⟩],
    stat_name := "10_0_0_1_8000_8010", envs := ["dev", "stg", "prd"],
    port := none, port_range := some (8000, 8010) }

/-- A TCP entry with neither `port` nor `port_range`. -/
def rNoPort : RawRule := { destination := some ("10.0.0.1") }

/-- A TCP entry whose `port_range` has `start > end`. -/
def rRangeBad : RawRule :=
  { destination := some ("10.0.0.1"), port_range := some (2, 1) }

/-- C8: the resolver never raises: on any lookup failure it returns the
empty sequence together with a non-fatal warning line, and on success it
returns a sorted, duplicate-free sequence with no diagnostics. -/
theorem C8_resolver_total_sorted_dedup (dns : Dns) (hostname : String) :
    (∀ e, dns hostname = Except.error e →
        resolve_hostname dns hostname
          = ([], ["WARNING: Could not resolve " ++ hostname ++ ": " ++ e]))
      ∧ (∀ l, dns hostname = Except.ok l →
          (resolve_hostname dns hostname).2 = []
            ∧ List.Pairwise (fun a b => strLe a b = true)
                (resolve_hostname dns hostname).1
            ∧ (resolve_hostname dns hostname).1.Nodup) := by
  constructor
  · intro e he
    unfold resolve_hostname
    rw [he]
  · intro l hl
    unfold resolve_hostname
    rw [hl]
    refine ⟨rfl, ?_, ?_⟩
    · show List.Pairwise (fun a b => strLe a b = true) (pySortedSet l)
      exact List.sorted_insertionSort _ l.dedup
    · show (pySortedSet l).Nodup
      exact ((List.perm_insertionSort _ l.dedup).nodup_iff).mpr (List.nodup_dedup l)

/-- C8 witness: a failing lookup and a successful lookup at concrete
inputs. -/
theorem C8_resolver_witness :
    (resolve_hostname dnsFail "bad.invalid.host"
        = ([], ["WARNING: Could not resolve " ++ "bad.invalid.host" ++ ": "
                  ++ "NXDOMAIN"]))
      ∧ ((resolve_hostname dnsOk "h.example").2 = []
           ∧ List.Pairwise (fun a b => strLe a b = true)
               (resolve_hostname dnsOk "h.example").1
           ∧ (resolve_hostname dnsOk "h.example").1.Nodup) :=
  ⟨(C8_resolver_total_sorted_dedup dnsFail "bad.invalid.host").1 ("NXDOMAIN") rfl,
   (C8_resolver_total_sorted_dedup dnsOk "h.example").2
     ["9.9.9.9", "1.1.1.1", "9.9.9.9"] rfl⟩

/-- C6: a bare IPv4 literal gets prefix length 32; a parsed CIDR keeps its
parsed prefix exactly; every address obtained for a non-literal
(hostname) destination has prefix length 32. -/
theorem C6_prefix_lengths :
    (∀ (s : String) (v : Nat), parseIPv4 s.data = some v →
        parse_cidr s = (ipToString v, 32))
      ∧ (∀ (s : String) (v p : Nat), ipNetwork s = some (v, p) →
          parse_cidr s = (ipToString v, p))
      ∧ (∀ (dns : Dns) (d : String) (a : ResolvedAddress),
          is_ip_or_cidr d = false → a ∈ expandDest dns d → a.prefix_len = 32) := by
  refine ⟨?_, ?_, ?_⟩
  · intro s v h
    unfold parse_cidr
    rw [ipNetwork_bare h]
  · intro s v p h
    unfold parse_cidr
    rw [h]
  · intro dns d a hip ha
    unfold expandDest at ha
    simp only [hip, Bool.false_eq_true, if_false] at ha
    obtain ⟨ip, _, rfl⟩ := List.mem_map.mp ha
    rfl

/-- C6 witness at concrete inputs of all three kinds. -/
theorem C6_prefix_lengths_witness :
    (parseIPv4 (String.data ("1.2.3.4")) = some 16909060
       ∧ parse_cidr ("1.2.3.4") = (ipToString 16909060, 32))
      ∧ (ipNetwork ("10.0.0.0/24") = some (167772160, 24)
           ∧ parse_cidr ("10.0.0.0/24") = (ipToString 167772160, 24))
      ∧ (is_ip_or_cidr ("h.example") = false
           ∧ ((⟨"1.1.1.1", 32⟩ : ResolvedAddress) ∈ expandDest dnsOk ("h.example"))
           ∧ (⟨"1.1.1.1", 32⟩ : ResolvedAddress).prefix_len = 32) :=
  ⟨⟨by decide, C6_prefix_lengths.1 ("1.2.3.4") 16909060 (by decide)⟩,
   ⟨by decide, C6_prefix_lengths.2.1 ("10.0.0.0/24") 167772160 24 (by decide)⟩,
   ⟨by decide, by decide,
    C6_prefix_lengths.2.2 dnsOk ("h.example") ⟨"1.1.1.1", 32⟩ (by decide) (by decide)⟩⟩

theorem pyTruthyInt_isSome {p : Option Int} (h : pyTruthyInt p = true) :
    p.isSome = true := by
  cases p with
  | none => simp [pyTruthyInt] at h
  | some v => rfl

/-- C3 (amended): for every produced TCP rule, the rule name is
`sanitize_name ("allow_" ++ first-destination ++ "_" ++ port-string)` and
the stat name is `sanitize_name (first-destination ++ "_" ++ port-string)`
(WITHOUT the `allow_` prefix); both depend only on the entry's fields,
never on how many addresses the destinations expand to. -/
theorem C3_naming (dns : Dns) (target_env : String) (cache : Cache)
    (rule : RawRule) (t : TcpRule) (c : Cache) (diags : List String)
    (ds : List String) (port : Option Int) (pr : Option (Int × Int)) (ps : String)
    (hds : tcpDests rule = some ds)
    (hport : tcpPortSel rule = some (port, pr))
    (hps : portStrSel port pr = some ps)
    (hrun : processTcpRule dns target_env cache rule = Except.ok (some t, c, diags)) :
    t.name = sanitize_name ("allow_" ++ ds.headD "" ++ "_" ++ ps)
      ∧ t.stat_name = sanitize_name (ds.headD "" ++ "_" ++ ps) := by
  unfold processTcpRule at hrun
  by_cases hproto : pyLower (rule.protocol.getD "tcp") ≠ "tcp"
  · rw [if_pos hproto] at hrun
    exact absurd hrun (by simp)
  · rw [if_neg hproto] at hrun
    by_cases henv : ¬ rule_applies_to_env rule target_env
    · rw [if_pos henv] at hrun
      exact absurd hrun (by simp)
    · rw [if_neg henv] at hrun
      simp only [hds, hport, hps] at hrun
      by_cases hie :
          (ds.foldl (destStep dns target_env) ([], [], cache, [])).1.isEmpty
      · rw [if_pos hie] at hrun
        exact absurd hrun (by simp)
      · rw [if_neg hie] at hrun
        simp only [Except.ok.injEq, Prod.mk.injEq, Option.some.injEq] at hrun
        obtain ⟨hteq, -, -⟩ := hrun
        subst hteq
        exact ⟨rfl, rfl⟩

/-- C3 counterexample to the claim as stated: a concrete produced rule
whose `stat_name` lacks the `allow_` prefix and therefore differs from
`sanitize_name ("allow_" + first destination + "_" + port)`. -/
theorem C3_counterexample :
    (match processTcpRule dnsFail "dev" [] rSingle with
     | Except.ok (some t, _, _) => some (t.name, t.stat_name)
     | _ => none) = some ("allow_10_0_0_1_443", "10_0_0_1_443")
      ∧ sanitize_name ("allow_" ++ "10.0.0.1" ++ "_" ++ "443") = "allow_10_0_0_1_443"
      ∧ ("10_0_0_1_443" : String) ≠ "allow_10_0_0_1_443" :=
  ⟨rfl, rfl, by decide⟩

/-- The rule `rSingle` produces. -/
def tSingle : TcpRule :=
  { name := "allow_10_0_0_1_443", description := "",
    destinations := ["10.0.0.1"], ip_addresses := [⟨"10.0.0.1", 32⟩],
    stat_name := "10_0_0_1_443", envs := ["dev", "stg", "prd"],
    port := some 443, port_range := none }

/-- C3 witness for the amended naming theorem at a concrete entry. -/
theorem C3_naming_witness :
    tcpDests rSingle = some ["10.0.0.1"]
      ∧ tcpPortSel rSingle = some (some 443, none)
      ∧ portStrSel (some 443) none = some ("443")
      ∧ (tSingle.name
           = sanitize_name ("allow_" ++ (["10.0.0.1"].headD "") ++ "_" ++ "443")
         ∧ tSingle.stat_name
             = sanitize_name ((["10.0.0.1"].headD "") ++ "_" ++ "443")) :=
  ⟨rfl, rfl, rfl,
   C3_naming dnsFail "dev" [] rSingle tSingle []
     ["[TCP]  " ++ "DEV" ++ ": " ++ "10.0.0.1" ++ ":" ++ "443" ++ " (" ++ "1"
        ++ " IPs)"]
     ["10.0.0.1"] (some 443) none ("443") rfl rfl rfl rfl⟩

/-- C5 (amended): every produced TCP rule has exactly one of
`port`/`port_range` set, and an entry with neither key is skipped with a
warning; the `start <= end` part of the original claim is NOT enforced by
the code (see the counterexample). -/
theorem C5_port_exactly_one (dns : Dns) (target_env : String) (cache : Cache)
    (rule : RawRule) :
    (∀ t c diags,
        processTcpRule dns target_env cache rule = Except.ok (some t, c, diags) →
        (t.port.isSome = true ∧ t.port_range = none)
          ∨ (t.port = none ∧ t.port_range.isSome = true))
      ∧ (pyLower (rule.protocol.getD "tcp") = "tcp" →
         rule_applies_to_env rule target_env = true →
         (∃ ds, tcpDests rule = some ds) →
         tcpPortSel rule = none →
         processTcpRule dns target_env cache rule
           = Except.ok (none, cache,
               ["WARNING: TCP rule missing port or port_range, skipping"])) := by
  constructor
  · intro t c diags hrun
    unfold processTcpRule at hrun
    by_cases hproto : pyLower (rule.protocol.getD "tcp") ≠ "tcp"
    · rw [if_pos hproto] at hrun
      exact absurd hrun (by simp)
    · rw [if_neg hproto] at hrun
      by_cases henv : ¬ rule_applies_to_env rule target_env
      · rw [if_pos henv] at hrun
        exact absurd hrun (by simp)
      · rw [if_neg henv] at hrun
        cases hds : tcpDests rule with
        | none =>
          rw [hds] at hrun
          exact absurd hrun (by simp)
        | some ds =>
          rw [hds] at hrun
          cases hport : tcpPortSel rule with
          | none =>
            rw [hport] at hrun
            exact absurd hrun (by simp)
          | some sel =>
            obtain ⟨port, pr⟩ := sel
            rw [hport] at hrun
            simp only at hrun
            by_cases hie :
                (ds.foldl (destStep dns target_env) ([], [], cache, [])).1.isEmpty
            · rw [if_pos hie] at hrun
              exact absurd hrun (by simp)
            · rw [if_neg hie] at hrun
              by_cases hpt : pyTruthyInt port
              · have hps : portStrSel port pr = (port.map toString) := by
                  simp [portStrSel, hpt]
                rw [hps] at hrun
                cases port with
                | none => simp [pyTruthyInt] at hpt
                | some v =>
                  simp only [Option.map_some', Except.ok.injEq, Prod.mk.injEq,
                    Option.some.injEq] at hrun
                  obtain ⟨hteq, -, -⟩ := hrun
                  subst hteq
                  simp [hpt]
              · have hps : portStrSel port pr
                    = pr.map (fun q => toString q.1 ++ "_" ++ toString q.2) := by
                  simp [portStrSel, hpt]
                rw [hps] at hrun
                cases pr with
                | none => exact absurd hrun (by simp)
                | some q =>
                  simp only [Option.map_some', Except.ok.injEq, Prod.mk.injEq,
                    Option.some.injEq] at hrun
                  obtain ⟨hteq, -, -⟩ := hrun
                  subst hteq
                  simp [hpt]
  · intro hproto henv hds hport
    obtain ⟨ds, hds⟩ := hds
    unfold processTcpRule
    rw [if_neg (by simp [hproto]), if_neg (by simp [henv])]
    simp only [hds, hport]

/-- C5 counterexample to the claim as stated: an entry whose `port_range`
is `start = 2, end = 1` still produces a rule carrying exactly that range,
so `port_range.start <= port_range.end` does NOT hold for produced rules. -/
theorem C5_counterexample :
    (match processTcpRule dnsFail "dev" [] rRangeBad with
     | Except.ok (some t, _, _) => t.port_range
     | _ => none) = some (2, 1)
      ∧ ¬ ((2 : Int) ≤ 1) :=
  ⟨rfl, by decide⟩

/-- C5 witness: a produced rule with a range (exactly one field set), and
a concrete skip of an entry missing both port keys. -/
theorem C5_port_exactly_one_witness :
    ((tRange.port.isSome = true ∧ tRange.port_range = none)
        ∨ (tRange.port = none ∧ tRange.port_range.isSome = true))
      ∧ processTcpRule dnsFail "dev" [] rNoPort
          = Except.ok (none, [],
              ["WARNING: TCP rule missing port or port_range, skipping"]) :=
  ⟨(C5_port_exactly_one dnsFail "dev" [] rRange).1 tRange []
     ["[TCP]  " ++ "DEV" ++ ": " ++ "10.0.0.1" ++ ":" ++ "8000-8010" ++ " ("
        ++ "1" ++ " IPs)"] rfl,
   (C5_port_exactly_one dnsFail "dev" [] rNoPort).2 rfl rfl ⟨["10.0.0.1"], rfl⟩ rfl⟩

/-- C2: for a TCP entry, the produced rule's `ip_addresses` is exactly the
concatenation of what each destination contributes (`expandDest`): failed
destinations contribute nothing but an error diagnostic each, and the
entry is dropped (with a skip warning) only when every destination
contributed nothing. -/
theorem C2_partial_resolution (dns : Dns) (target_env : String) (rule : RawRule)
    (ds : List String) (port : Option Int) (pr : Option (Int × Int)) (ps : String)
    (hproto : pyLower (rule.protocol.getD "tcp") = "tcp")
    (henv : rule_applies_to_env rule target_env = true)
    (hds : tcpDests rule = some ds)
    (hport : tcpPortSel rule = some (port, pr))
    (hps : portStrSel port pr = some ps) :
    ((∃ d ∈ ds, expandDest dns d ≠ []) →
       ∃ t cache2 diags,
         processTcpRule dns target_env [] rule = Except.ok (some t, cache2, diags)
           ∧ t.ip_addresses = ds.flatMap (expandDest dns)
           ∧ (∀ d ∈ ds, is_ip_or_cidr d = false → (resolve_hostname dns d).1 = [] →
               cannotResolveMsg d target_env ∈ diags))
      ∧ ((∀ d ∈ ds, expandDest dns d = []) →
         ∃ cache2 diags,
           processTcpRule dns target_env [] rule = Except.ok (none, cache2, diags)
             ∧ ("WARNING: No valid IPs for rule, skipping") ∈ diags
             ∧ (∀ d ∈ ds, is_ip_or_cidr d = false → (resolve_hostname dns d).1 = [] →
                 cannotResolveMsg d target_env ∈ diags)) := by
  obtain ⟨h1, h2, h3, h4⟩ :=
    destStep_foldl dns target_env ds ([], [], [], []) (cacheConsistent_nil dns)
  rcases hE : ds.foldl (destStep dns target_env) ([], [], ([] : Cache), ([] : List String))
    with ⟨ips, rds, c2, dgs⟩
  rw [hE] at h1 h2 h3 h4
  dsimp only at h1 h2 h3 h4
  rw [List.nil_append] at h1
  constructor
  · rintro ⟨d0, hd0, hne⟩
    have hipsne : ips ≠ [] := by
      rw [h1]
      intro hnil
      obtain ⟨x, hx⟩ := List.exists_mem_of_ne_nil _ hne
      exact absurd (hnil ▸ List.mem_flatMap.mpr ⟨d0, hd0, hx⟩) (List.not_mem_nil x)
    have hie : ips.isEmpty = false := List.isEmpty_eq_false.mpr hipsne
    have hrun : processTcpRule dns target_env [] rule
        = Except.ok (some
            { name := sanitize_name ("allow_" ++ ds.headD "" ++ "_" ++ ps),
              description := rule.description.getD "",
              destinations := ds,
              ip_addresses := ips,
              stat_name := sanitize_name (ds.headD "" ++ "_" ++ ps),
              envs := rule.envs.getD ["dev", "stg", "prd"],
              port := if pyTruthyInt port then port else none,
              port_range := if pyTruthyInt port then none else pr },
            c2,
            dgs ++ [tcpLogLine target_env rds port pr ips.length]) := by
      unfold processTcpRule
      rw [if_neg (by simp [hproto]), if_neg (by simp [henv])]
      simp only [hds, hport]
      rw [hE]
      dsimp only
      rw [hie]
      simp only [Bool.false_eq_true, if_false, hps]
    exact ⟨_, c2, _, hrun, h1,
      fun d hd hfip hres => List.mem_append.mpr (Or.inl (h4 d hd hfip hres))⟩
  · intro hall
    have hipsnil : ips = [] := by
      rw [h1]
      exact List.flatMap_eq_nil_iff.mpr hall
    have hie : ips.isEmpty = true := List.isEmpty_iff.mpr hipsnil
    have hrun : processTcpRule dns target_env [] rule
        = Except.ok (none, c2,
            dgs ++ ["WARNING: No valid IPs for rule, skipping"]) := by
      unfold processTcpRule
      rw [if_neg (by simp [hproto]), if_neg (by simp [henv])]
      simp only [hds, hport]
      rw [hE]
      dsimp only
      rw [hie]
      simp only [if_true]
    exact ⟨c2, _, hrun,
      List.mem_append.mpr (Or.inr (List.mem_singleton.mpr rfl)),
      fun d hd hfip hres => List.mem_append.mpr (Or.inl (h4 d hd hfip hres))⟩

/-- The spec's partial-resolution example entry. -/
def rTwo : RawRule :=
  { destinations := some ["10.0.0.0/24", "bad.invalid.host"], port := some 443 }

/-- C2 witness: the spec's example — one destination a literal CIDR, the
other an unresolvable hostname — yields one rule whose addresses are
exactly the CIDR entry, with a diagnostic for the failed destination. -/
theorem C2_partial_resolution_witness :
    (pyLower (rTwo.protocol.getD "tcp") = "tcp"
        ∧ rule_applies_to_env rTwo "prd" = true
        ∧ tcpDests rTwo = some ["10.0.0.0/24", "bad.invalid.host"]
        ∧ tcpPortSel rTwo = some (some 443, none)
        ∧ portStrSel (some 443) none = some ("443")
        ∧ (∃ d ∈ (["10.0.0.0/24", "bad.invalid.host"] : List String),
            expandDest dnsFail d ≠ []))
      ∧ (∃ t cache2 diags,
           processTcpRule dnsFail "prd" [] rTwo = Except.ok (some t, cache2, diags)
             ∧ t.ip_addresses
                 = (["10.0.0.0/24", "bad.invalid.host"] : List String).flatMap
                     (expandDest dnsFail)
             ∧ (∀ d ∈ (["10.0.0.0/24", "bad.invalid.host"] : List String),
                 is_ip_or_cidr d = false → (resolve_hostname dnsFail d).1 = [] →
                   cannotResolveMsg d "prd" ∈ diags)) :=
  ⟨⟨rfl, rfl, rfl, rfl, rfl, ⟨"10.0.0.0/24", by decide, by decide⟩⟩,
   (C2_partial_resolution dnsFail "prd" rTwo ["10.0.0.0/24", "bad.invalid.host"]
       (some 443) none ("443") rfl rfl rfl rfl rfl).1
     ⟨"10.0.0.0/24", by decide, by decide⟩⟩

end Egress
